import Mathlib

/-!
Verification model of `samcli/commands/local/lib/provider.py`.

The Python module defines the value types `Function`, `LayerVersion`, `Api`
and `Cors` together with the abstract provider classes.  Below we give a
shallow embedding of those definitions in Lean: Python strings become
`String`, Python `int` becomes `Int`, raised exceptions become `Except`
errors, and the partial `layer_arn` property (which can raise an uncaught
`ValueError`) becomes an `Option`-valued function.

`LayerVersion` names are derived from `hashlib.sha256(arn.encode('utf-8'))`,
so the embedding contains a complete executable SHA-256 over byte lists,
plus the UTF-8 encoder and the lowercase hex digest used by `hexdigest()`.
-/

namespace Provider

/-! ### SHA-256 (model of `hashlib.sha256(...).hexdigest()`)

Bytes are `Nat` values below 256; 32-bit words are `Nat` values reduced
modulo `2 ^ 32` at every arithmetic step. -/

def w32 : Nat := 4294967296

def add32 (a b : Nat) : Nat := (a + b) % w32

def rotr32 (n x : Nat) : Nat := ((x >>> n) ||| (x <<< (32 - n))) % w32

def not32 (x : Nat) : Nat := Nat.xor x (w32 - 1)

def xor3 (a b c : Nat) : Nat := Nat.xor (Nat.xor a b) c

def ch32 (x y z : Nat) : Nat := Nat.xor (Nat.land x y) (Nat.land (not32 x) z)

def maj32 (x y z : Nat) : Nat :=
  xor3 (Nat.land x y) (Nat.land x z) (Nat.land y z)

def bigSigma0 (x : Nat) : Nat := xor3 (rotr32 2 x) (rotr32 13 x) (rotr32 22 x)

def bigSigma1 (x : Nat) : Nat := xor3 (rotr32 6 x) (rotr32 11 x) (rotr32 25 x)

def smallSigma0 (x : Nat) : Nat := xor3 (rotr32 7 x) (rotr32 18 x) (x >>> 3)

def smallSigma1 (x : Nat) : Nat := xor3 (rotr32 17 x) (rotr32 19 x) (x >>> 10)

/-- The 64 SHA-256 round constants (decimal). -/
def roundK : List Nat :=
  [1116352408, 1899447441, 3049323471, 3921009573,
   961987163, 1508970993, 2453635748, 2870763221,
   3624381080, 310598401, 607225278, 1426881987,
   1925078388, 2162078206, 2614888103, 3248222580,
   3835390401, 4022224774, 264347078, 604807628,
   770255983, 1249150122, 1555081692, 1996064986,
   2554220882, 2821834349, 2952996808, 3210313671,
   3336571891, 3584528711, 113926993, 338241895,
   666307205, 773529912, 1294757372, 1396182291,
   1695183700, 1986661051, 2177026350, 2456956037,
   2730485921, 2820302411, 3259730800, 3345764771,
   3516065817, 3600352804, 4094571909, 275423344,
   430227734, 506948616, 659060556, 883997877,
   958139571, 1322822218, 1537002063, 1747873779,
   1955562222, 2024104815, 2227730452, 2361852424,
   2428436474, 2756734187, 3204031479, 3329325298]

/-- The SHA-256 working state: eight 32-bit words. -/
structure Sha256St where
  a : Nat
  b : Nat
  c : Nat
  d : Nat
  e : Nat
  f : Nat
  g : Nat
  h : Nat

def initSt : Sha256St :=
  ⟨1779033703, 3144134277, 1013904242, 2773480762,
   1359893119, 2600822924, 528734635, 1541459225⟩

/-- One compression round, consuming a `(round constant, schedule word)` pair. -/
def roundFn (st : Sha256St) (kw : Nat × Nat) : Sha256St :=
  let t1 := add32 st.h (add32 (bigSigma1 st.e)
    (add32 (ch32 st.e st.f st.g) (add32 kw.1 kw.2)))
  let t2 := add32 (bigSigma0 st.a) (maj32 st.a st.b st.c)
  ⟨add32 t1 t2, st.a, st.b, st.c, add32 st.d t1, st.e, st.f, st.g⟩

def addStates (x y : Sha256St) : Sha256St :=
  ⟨add32 x.a y.a, add32 x.b y.b, add32 x.c y.c, add32 x.d y.d,
   add32 x.e y.e, add32 x.f y.f, add32 x.g y.g, add32 x.h y.h⟩

/-- Big-endian packing of groups of four bytes into 32-bit words. -/
def toWords : List Nat → List Nat
  | b0 :: b1 :: b2 :: b3 :: rest =>
      (b0 * 16777216 + b1 * 65536 + b2 * 256 + b3) % w32 :: toWords rest
  | _ => []

def scheduleStep (w : List Nat) (t : Nat) : Nat :=
  add32 (add32 (w.getD (t - 16) 0) (smallSigma0 (w.getD (t - 15) 0)))
    (add32 (w.getD (t - 7) 0) (smallSigma1 (w.getD (t - 2) 0)))

/-- Extend the 16 chunk words to the 64-entry message schedule. -/
def fullSchedule (w16 : List Nat) : List Nat :=
  (List.range 48).foldl (fun w i => w ++ [scheduleStep w (i + 16)]) w16

def processChunk (st : Sha256St) (chunk : List Nat) : Sha256St :=
  let ws := fullSchedule (toWords chunk)
  addStates st ((roundK.zip ws).foldl roundFn st)

/-- Big-endian bytes of the 64-bit message bit length. -/
def lenBytes (bitLen : Nat) : List Nat :=
  [bitLen >>> 56 % 256, bitLen >>> 48 % 256, bitLen >>> 40 % 256,
   bitLen >>> 32 % 256, bitLen >>> 24 % 256, bitLen >>> 16 % 256,
   bitLen >>> 8 % 256, bitLen % 256]

/-- SHA-256 padding: a `0x80` byte, zeros to 56 mod 64, then the bit length. -/
def padMessage (msg : List Nat) : List Nat :=
  let len := msg.length
  let padZeros := (120 - (len + 1) % 64) % 64
  msg ++ 128 :: List.replicate padZeros 0 ++ lenBytes (8 * len)

def toChunks : List Nat → List (List Nat)
  | [] => []
  | b :: rest => (b :: rest).take 64 :: toChunks ((b :: rest).drop 64)
  termination_by l => l.length
  decreasing_by simp [List.length_drop]; omega

/-- Big-endian bytes of one 32-bit word. -/
def bytesOfWord (w : Nat) : List Nat :=
  [w / 16777216 % 256, w / 65536 % 256, w / 256 % 256, w % 256]

def digestOfState (st : Sha256St) : List Nat :=
  bytesOfWord st.a ++ bytesOfWord st.b ++ bytesOfWord st.c ++ bytesOfWord st.d ++
  bytesOfWord st.e ++ bytesOfWord st.f ++ bytesOfWord st.g ++ bytesOfWord st.h

/-- SHA-256 of a byte list, as the 32 digest bytes. -/
def sha256Bytes (msg : List Nat) : List Nat :=
  digestOfState ((toChunks (padMessage msg)).foldl processChunk initSt)

/-! ### UTF-8 encoding (model of `str.encode('utf-8')`) -/

def utf8Char (c : Char) : List Nat :=
  let n := c.toNat
  if n < 128 then [n]
  else if n < 2048 then [192 + n / 64, 128 + n % 64]
  else if n < 65536 then [224 + n / 4096, 128 + n / 64 % 64, 128 + n % 64]
  else [240 + n / 262144, 128 + n / 4096 % 64, 128 + n / 64 % 64, 128 + n % 64]

def utf8Encode (s : String) : List Nat := s.data.foldr (fun c acc => utf8Char c ++ acc) []

/-! ### Lowercase hex digest (model of `hexdigest()`) -/

def hexAlphabet : List Char := "0123456789abcdef".data

def hexChar (n : Nat) : Char := hexAlphabet.getD (n % 16) '0'

def byteToHexChars (b : Nat) : List Char := [hexChar (b / 16), hexChar b]

def hexDigestChars (bytes : List Nat) : List Char :=
  bytes.foldr (fun b acc => byteToHexChars b ++ acc) []

/-- The lowercase hex characters of `hashlib.sha256(s.encode('utf-8')).hexdigest()`. -/
def sha256HexChars (s : String) : List Char :=
  hexDigestChars (sha256Bytes (utf8Encode s))

/-! ### Python string helpers

`rsplit1Chars` finds the LAST colon of a character list: the recursive call
is preferred, so a split found deeper in the list (further right) wins. -/

def rsplit1Chars : List Char → Option (List Char × List Char)
  | [] => none
  | c :: rest =>
    match rsplit1Chars rest with
    | some (a, b) => some (c :: a, b)
    | none => if c = ':' then some ([], rest) else none

/-- Model of `s.rsplit(':', 1)` when it yields two parts.  Python returns the
one-element list `[s]` when `s` has no colon, which makes the two-variable
unpacking in the source raise `ValueError`; that case is `none` here. -/
def rsplit1 (s : String) : Option (String × String) :=
  (rsplit1Chars s.data).map fun p => (String.mk p.1, String.mk p.2)

/-- Model of `s.rsplit(':', 2)` when it yields three parts (the source
unpacks it into three variables, so fewer parts raise `ValueError`):
split off the last segment, then the last segment of the remainder. -/
def rsplit2 (s : String) : Option (String × String × String) :=
  match rsplit1 s with
  | none => none
  | some (rest, last) =>
    match rsplit1 rest with
    | none => none
    | some (p, mid) => some (p, mid, last)

/-- The final colon-delimited segment of a string (the whole string when it
has no colon). -/
def lastSegment (s : String) : String :=
  match rsplit1 s with
  | some p => p.2
  | none => s

/-- Digits of a candidate `int()` literal; `none` when empty or when any
character is not an ASCII digit. -/
def digitsToNat : List Char → Option Nat
  | [] => none
  | l => l.foldl (fun acc c =>
      acc.bind fun a => if c.isDigit then some (a * 10 + (c.toNat - 48)) else none)
      (some 0)

def stripWs (l : List Char) : List Char :=
  ((l.dropWhile Char.isWhitespace).reverse.dropWhile Char.isWhitespace).reverse

/-- Model of Python `int(s)` for `str` input: optional surrounding
whitespace, an optional sign, then one or more ASCII digits; `none` models
the `ValueError` raised for any other shape. -/
def parsePyInt (s : String) : Option Int :=
  match stripWs s.data with
  | '+' :: ds => (digitsToNat ds).map Int.ofNat
  | '-' :: ds => (digitsToNat ds).map fun n => -(n : Int)
  | ds => (digitsToNat ds).map Int.ofNat

/-- Model of `str.join`: `joinDelim d [a, b, c] = a ++ d ++ b ++ d ++ c`. -/
def joinDelim (d : String) : List String → String
  | [] => ""
  | [x] => x
  | x :: xs => x ++ d ++ joinDelim d xs

/-! ### LayerVersion -/

/-- The errors `LayerVersion.__init__` can raise.  The
`InvalidLayerVersionArn` message in the source is `arn + " is an Invalid
Layer Arn."`; we carry the offending arn. -/
inductive LayerError where
  | unsupportedIntrinsic
  | invalidLayerVersionArn (arn : String)
deriving DecidableEq

/-- The instance fields of a constructed `LayerVersion` (its `__dict__`):
`_arn`, `_codeuri`, `is_defined_within_template`, `_name`, `_version`. -/
structure LayerVersion where
  arn : String
  codeuri : String
  is_defined_within_template : Bool
  name : String
  version : Option Int
deriving DecidableEq

/-- A Python value that may be passed where the source does a dynamic
`isinstance` check: a string, an int, an unresolved intrinsic dict, or a
`LayerVersion` instance (for `__eq__`'s type test). -/
inductive PyVal where
  | pstr (s : String)
  | pint (n : Int)
  | pdict
  | player (lv : LayerVersion)
deriving DecidableEq

def isStr : PyVal → Bool
  | .pstr _ => true
  | _ => false

def isLayerVersionVal : PyVal → Bool
  | .player _ => true
  | _ => false

/-- Model of `LayerVersion._compute_layer_name`: for a template-local layer
the arn (logical id) itself; otherwise
`"-".join([layer_name, layer_version, sha256(arn)[0:10]])`, failing on
arns with fewer than three colon-delimited parts. -/
def computeLayerName (isDefined : Bool) (arn : String) : Except LayerError String :=
  if isDefined then .ok arn
  else
    match rsplit2 arn with
    | none => .error (.invalidLayerVersionArn arn)
    | some (_, layerName, layerVer) =>
      .ok (joinDelim "-" [layerName, layerVer, String.mk ((sha256HexChars arn).take 10)])

/-- Model of `LayerVersion._compute_layer_version`: `None` for a
template-local layer; otherwise `int` of the segment after the last colon,
failing when the split or the parse fails. -/
def computeLayerVersion (isDefined : Bool) (arn : String) :
    Except LayerError (Option Int) :=
  if isDefined then .ok none
  else
    match rsplit1 arn with
    | none => .error (.invalidLayerVersionArn arn)
    | some (_, seg) =>
      match parsePyInt seg with
      | none => .error (.invalidLayerVersionArn arn)
      | some v => .ok (some v)

/-- Model of `LayerVersion.__init__`: reject non-string arns first
(`UnsupportedIntrinsic`), set `is_defined_within_template = bool(codeuri)`,
then compute the name and the version in that order. -/
def mkLayerVersion (arn : PyVal) (codeuri : String) : Except LayerError LayerVersion :=
  match arn with
  | .pstr s =>
    let isDefined : Bool := !(codeuri == "")
    match computeLayerName isDefined s with
    | .error e => .error e
    | .ok name =>
      match computeLayerVersion isDefined s with
      | .error e => .error e
      | .ok version => .ok ⟨s, codeuri, isDefined, name, version⟩
  | _ => .error .unsupportedIntrinsic

/-- Model of the `layer_arn` property: `self.arn.rsplit(':', 1)` unpacked
into two variables with no exception handler, so an arn without a colon
raises an uncaught `ValueError` — modelled as `none`. -/
def layerArn (lv : LayerVersion) : Option String :=
  (rsplit1 lv.arn).map fun p => p.1

/-- Model of the `codeuri` setter. -/
def setCodeuri (lv : LayerVersion) (c : String) : LayerVersion :=
  ⟨lv.arn, c, lv.is_defined_within_template, lv.name, lv.version⟩

/-- Model of `LayerVersion.__eq__`: `self.__dict__ == other.__dict__` when
`other` is a `LayerVersion`, `False` for any other value. -/
def layerVersionEq (self : LayerVersion) (other : PyVal) : Bool :=
  match other with
  | .player o => self == o
  | _ => false

def isInvalidArnError {α : Type} : Except LayerError α → Bool
  | .error (.invalidLayerVersionArn _) => true
  | _ => false

/-! ### Function (the `Function` namedtuple) -/

/-- The `Function` namedtuple of the source, with the same field order. -/
structure Function where
  name : String
  runtime : String
  memory : Nat
  timeout : Nat
  handler : String
  codeuri : String
  environment : List (String × String)
  rolearn : Option String
  layers : List LayerVersion
deriving DecidableEq

/-! ### Cors -/

/-- The `Cors` namedtuple: four optional fields, each defaulting to `None`. -/
structure Cors where
  allow_origin : Option String
  allow_methods : Option String
  allow_headers : Option String
  max_age : Option String
deriving DecidableEq

/-- Model of `Cors.cors_to_headers`.  The argument is `none` for an absent
(`None`) Cors — `if not cors` is true exactly then, since a namedtuple
instance is a non-empty tuple and hence always truthy.  For a present Cors
the four fixed header names are paired with the field values and the pairs
whose value is `None` are filtered out, exactly as the source's dict
comprehension keeps only `h_value is not None`. -/
def corsToHeaders : Option Cors → List (String × String)
  | none => []
  | some cors =>
    let headers : List (String × Option String) :=
      [("Access-Control-Allow-Origin", cors.allow_origin),
       ("Access-Control-Allow-Methods", cors.allow_methods),
       ("Access-Control-Allow-Headers", cors.allow_headers),
       ("Access-Control-Max-Age", cors.max_age)]
    headers.filterMap fun p => p.2.map fun v => (p.1, v)

/-! ### Api and the Python `hash` builtin

`Api.__hash__` calls the builtin `hash` on `self.routes` (a Python `list`),
on `self.cors` (`None` or a `Cors` namedtuple) and on
`self.binary_media_types_set` (a Python `set`).  The builtin raises
`TypeError: unhashable type` on lists and sets; the concrete hash values of
hashable objects are implementation-defined, so they are modelled by a
deterministic stand-in, while hashability itself is modelled faithfully:
`pyHash` is `none` exactly on the unhashable container kinds. -/

/-- A flat (scalar) Python value appearing inside a hashed container. -/
inductive FlatVal where
  | fnone
  | fstr (s : String)
  | fint (n : Int)
deriving DecidableEq

/-- A Python value as seen by the `hash` builtin in `Api.__hash__`. -/
inductive HashVal where
  | flat (f : FlatVal)
  | vtuple (es : List FlatVal)
  | vlist (es : List HashVal)
  | vset (es : List HashVal)

/-- Stand-in for CPython's (implementation-defined) hash of a scalar. -/
def flatHash : FlatVal → Int
  | .fnone => 271828
  | .fstr s => s.data.foldl (fun acc c => acc * 31 + (c.toNat : Int)) 7
  | .fint n => n

/-- Model of the builtin `hash`: defined on `None`, strings, ints and
tuples of those; `none` (a raised `TypeError`) on lists and sets. -/
def pyHash : HashVal → Option Int
  | .flat f => some (flatHash f)
  | .vtuple es => some (es.foldl (fun acc e => acc * 1000003 + flatHash e) 5381)
  | .vlist _ => none
  | .vset _ => none

/-- A `Cors` value (or `None`) as the `hash` builtin sees it: `None`, or the
namedtuple as a tuple of its four fields. -/
def corsHashVal : Option Cors → HashVal
  | none => .flat .fnone
  | some c =>
    let f : Option String → FlatVal := fun o =>
      match o with
      | none => .fnone
      | some s => .fstr s
    .vtuple [f c.allow_origin, f c.allow_methods, f c.allow_headers, f c.max_age]

/-- The instance fields `Api.__init__` creates: `routes` is a Python list,
`binary_media_types_set` a Python set (held here as its element list),
`cors`, `stage_name` and `stage_variables` start as `None`. -/
structure Api where
  routes : List HashVal
  cors : Option Cors
  binary_media_types_set : List String
  stage_name : Option String
  stage_variables : Option (List (String × String))

/-- Model of `Api.__init__(routes=None)`. -/
def apiInit (routes : Option (List HashVal)) : Api :=
  ⟨routes.getD [], none, [], none, none⟩

/-- Model of `Api.__hash__`:
`hash(self.routes) * hash(self.cors) * hash(self.binary_media_types_set)`,
with Python's left-to-right evaluation; `none` models a raised `TypeError`
from any of the three `hash` calls. -/
def apiHash (a : Api) : Option Int :=
  match pyHash (.vlist a.routes) with
  | none => none
  | some h1 =>
    match pyHash (corsHashVal a.cors) with
    | none => none
    | some h2 =>
      match pyHash (.vset (a.binary_media_types_set.map (fun s => .flat (.fstr s)))) with
      | none => none
      | some h3 => some (h1 * h2 * h3)

/-- Model of the `binary_media_types` property, a list view of the set. -/
def binaryMediaTypes (a : Api) : List String := a.binary_media_types_set

/-! ### Helper lemmas about the split and the hash digest -/

theorem rsplit1Chars_none_no_colon (l : List Char) (h : rsplit1Chars l = none) :
    ∀ c ∈ l, c ≠ ':' := by
  induction l with
  | nil => simp
  | cons c rest ih =>
    intro d hd
    cases hr : rsplit1Chars rest with
    | some p => simp [rsplit1Chars, hr] at h
    | none =>
      by_cases hc : c = ':'
      · simp [rsplit1Chars, hr, hc] at h
      · rcases List.mem_cons.mp hd with h1 | h1
        · exact h1 ▸ hc
        · exact ih hr d h1

theorem rsplit1Chars_of_no_colon (l : List Char) (h : ∀ c ∈ l, c ≠ ':') :
    rsplit1Chars l = none := by
  induction l with
  | nil => rfl
  | cons c rest ih =>
    have hr : rsplit1Chars rest = none := ih (fun d hd => h d (List.mem_cons_of_mem c hd))
    have hc : c ≠ ':' := h c (List.mem_cons_self c rest)
    simp [rsplit1Chars, hr, hc]

theorem rsplit1Chars_some_spec (l p q : List Char) (h : rsplit1Chars l = some (p, q)) :
    l = p ++ ':' :: q ∧ ∀ c ∈ q, c ≠ ':' := by
  induction l generalizing p q with
  | nil => simp [rsplit1Chars] at h
  | cons c rest ih =>
    cases hr : rsplit1Chars rest with
    | some pr =>
      obtain ⟨a, b⟩ := pr
      simp [rsplit1Chars, hr] at h
      obtain ⟨hp, hq⟩ := h
      obtain ⟨hrest, hfree⟩ := ih a b hr
      subst hp hq
      exact ⟨by rw [hrest]; rfl, hfree⟩
    | none =>
      by_cases hc : c = ':'
      · simp [rsplit1Chars, hr, hc] at h
        obtain ⟨hp, hq⟩ := h
        subst hp hq
        exact ⟨by rw [hc]; rfl, rsplit1Chars_none_no_colon rest hr⟩
      · simp [rsplit1Chars, hr, hc] at h

theorem mk_append (a b : List Char) : String.mk a ++ String.mk b = String.mk (a ++ b) := rfl

theorem strAppend_assoc (a b c : String) : a ++ b ++ c = a ++ (b ++ c) := by
  apply String.ext
  simp [String.data_append, List.append_assoc]

theorem rsplit1_some_spec (s a b : String) (h : rsplit1 s = some (a, b)) :
    s = a ++ ":" ++ b ∧ ∀ c ∈ b.data, c ≠ ':' := by
  unfold rsplit1 at h
  cases hr : rsplit1Chars s.data with
  | none => rw [hr] at h; simp at h
  | some p =>
    obtain ⟨p1, p2⟩ := p
    rw [hr] at h
    simp at h
    obtain ⟨ha, hb⟩ := h
    obtain ⟨hl, hfree⟩ := rsplit1Chars_some_spec s.data p1 p2 hr
    constructor
    · apply String.ext
      rw [← ha, ← hb]
      simpa [String.data_append] using hl
    · rw [← hb]
      exact hfree

theorem rsplit1_of_no_colon (s : String) (h : ∀ c ∈ s.data, c ≠ ':') :
    rsplit1 s = none := by
  simp [rsplit1, rsplit1Chars_of_no_colon s.data h]

theorem rsplit2_eq_some (s p m l : String) (h : rsplit2 s = some (p, m, l)) :
    ∃ rest, rsplit1 s = some (rest, l) ∧ rsplit1 rest = some (p, m) := by
  unfold rsplit2 at h
  split at h
  · simp at h
  · rename_i rest last h1
    split at h
    · simp at h
    · rename_i p2 mid h2
      simp at h
      obtain ⟨hp, hm, hl⟩ := h
      subst hp hm hl
      exact ⟨rest, h1, h2⟩

theorem hexDigestChars_length (bytes : List Nat) :
    (hexDigestChars bytes).length = 2 * bytes.length := by
  induction bytes with
  | nil => rfl
  | cons b rest ih =>
    simp [hexDigestChars, byteToHexChars] at ih ⊢
    omega

theorem sha256Bytes_length (msg : List Nat) : (sha256Bytes msg).length = 32 := by
  simp [sha256Bytes, digestOfState, bytesOfWord]

theorem sha256HexChars_length (s : String) : (sha256HexChars s).length = 64 := by
  simp [sha256HexChars, hexDigestChars_length, sha256Bytes_length]

theorem hexChar_mem (x : Nat) : hexChar x ∈ hexAlphabet := by
  have hb : ∀ m, m < 16 → hexAlphabet.getD m '0' ∈ hexAlphabet := by decide
  exact hb (x % 16) (Nat.mod_lt x (by norm_num))

theorem hexDigestChars_mem (bytes : List Nat) (c : Char) (h : c ∈ hexDigestChars bytes) :
    c ∈ hexAlphabet := by
  induction bytes with
  | nil => simp [hexDigestChars] at h
  | cons b rest ih =>
    simp only [hexDigestChars, List.foldr_cons] at h
    rcases List.mem_append.mp h with h1 | h1
    · simp [byteToHexChars] at h1
      rcases h1 with h1 | h1 <;> exact h1 ▸ hexChar_mem _
    · exact ih h1

theorem mkLayerVersion_ok_inv (s codeuri : String) (lv : LayerVersion)
    (h : mkLayerVersion (.pstr s) codeuri = .ok lv) :
    lv.arn = s ∧ lv.codeuri = codeuri := by
  simp only [mkLayerVersion] at h
  cases hn : computeLayerName (!(codeuri == "")) s with
  | error e => rw [hn] at h; simp at h
  | ok name =>
    rw [hn] at h
    cases hv : computeLayerVersion (!(codeuri == "")) s with
    | error e => rw [hv] at h; simp at h
    | ok version =>
      rw [hv] at h
      simp at h
      rw [← h]
      exact ⟨rfl, rfl⟩

/-! ### The claims -/

/-- C2: constructing a `LayerVersion` from a string arn with empty codeuri
raises `InvalidLayerVersionArn` exactly when the arn has fewer than three
colon-delimited segments (i.e. `rsplit(':', 2)` cannot produce three
parts) or its final colon-delimited segment does not parse as an integer;
otherwise the construction succeeds with no error. -/
theorem invalid_arn_error_iff (arn : String) :
    isInvalidArnError (mkLayerVersion (.pstr arn) "") = true ↔
      (rsplit2 arn = none ∨ parsePyInt (lastSegment arn) = none) := by
  cases h1 : rsplit1 arn with
  | none =>
    have h2 : rsplit2 arn = none := by simp [rsplit2, h1]
    simp [mkLayerVersion, computeLayerName, h2, isInvalidArnError]
  | some q =>
    obtain ⟨rest, last⟩ := q
    cases h1' : rsplit1 rest with
    | none =>
      have h2 : rsplit2 arn = none := by simp [rsplit2, h1, h1']
      simp [mkLayerVersion, computeLayerName, h2, isInvalidArnError]
    | some r =>
      obtain ⟨p2, mid⟩ := r
      have h2 : rsplit2 arn = some (p2, mid, last) := by simp [rsplit2, h1, h1']
      have hseg : lastSegment arn = last := by simp [lastSegment, h1]
      cases hp : parsePyInt last with
      | none =>
        simp [mkLayerVersion, computeLayerName, computeLayerVersion, h2, h1, hp,
          isInvalidArnError, hseg]
      | some k =>
        simp [mkLayerVersion, computeLayerName, computeLayerVersion, h2, h1, hp,
          isInvalidArnError, hseg]

/-- C3: for every string arn and non-empty codeuri the construction
succeeds, marking the layer as defined within the template, using the arn
verbatim as the name (it is the template logical id) and no version. -/
theorem template_local_layer (arnS codeuri : String) (h : codeuri ≠ "") :
    mkLayerVersion (.pstr arnS) codeuri = .ok ⟨arnS, codeuri, true, arnS, none⟩ := by
  have hb : (codeuri == "") = false := beq_eq_false_iff_ne.mpr h
  simp [mkLayerVersion, hb, computeLayerName, computeLayerVersion]

/-- Witness for C3 at arn `MyLayer`, codeuri `./code`. -/
theorem template_local_layer_witness :
    ("./code" : String) ≠ "" ∧
    mkLayerVersion (.pstr "MyLayer") "./code" = .ok ⟨"MyLayer", "./code", true, "MyLayer", none⟩ :=
  ⟨by decide, template_local_layer "MyLayer" "./code" (by decide)⟩

/-- C4: a non-string arn (unresolved intrinsic dict, integer, or any other
non-string value) makes construction fail with `UnsupportedIntrinsic`,
before any parsing, hence never with `InvalidLayerVersionArn`. -/
theorem non_string_arn_unsupported (v : PyVal) (codeuri : String) (h : isStr v = false) :
    mkLayerVersion v codeuri = .error .unsupportedIntrinsic := by
  cases v <;> simp_all [isStr, mkLayerVersion]

/-- Witness for C4 at the integer `123` and the intrinsic dict. -/
theorem non_string_arn_unsupported_witness :
    isStr (.pint 123) = false ∧
    mkLayerVersion (.pint 123) "" = .error .unsupportedIntrinsic ∧
    mkLayerVersion .pdict "./code" = .error .unsupportedIntrinsic :=
  ⟨rfl, non_string_arn_unsupported (.pint 123) "" rfl,
    non_string_arn_unsupported .pdict "./code" rfl⟩

/-- C8 (code behaviour at the failing input): `Api.__hash__` multiplies
`hash(self.routes)`, `hash(self.cors)` and `hash(self.binary_media_types_set)`,
but `self.routes` is a Python `list` and `self.binary_media_types_set` a
Python `set`, and the builtin `hash` raises `TypeError` on both; so the
hash computation raises on every `Api` instead of returning a value. -/
theorem api_hash_always_raises :
    (∀ a : Api, apiHash a = none) ∧ apiHash (apiInit none) = none :=
  ⟨fun _ => rfl, rfl⟩

/-- C9: on any successfully constructed `LayerVersion` whose arn contains
no colon (e.g. every template-local layer named by a plain logical id),
the `layer_arn` property does not return a value: the unguarded
`rsplit(':', 1)` unpacking raises, so `layer_arn` is partial. -/
theorem layer_arn_no_colon (arn codeuri : String) (lv : LayerVersion)
    (h : mkLayerVersion (.pstr arn) codeuri = .ok lv)
    (hc : ∀ c ∈ arn.data, c ≠ ':') :
    layerArn lv = none := by
  obtain ⟨harn, _⟩ := mkLayerVersion_ok_inv arn codeuri lv h
  simp [layerArn, harn, rsplit1_of_no_colon arn hc]

/-- Witness for C9 at the colon-free logical id `MyLayer` with non-empty
codeuri. -/
theorem layer_arn_no_colon_witness :
    mkLayerVersion (.pstr "MyLayer") "./code" = .ok ⟨"MyLayer", "./code", true, "MyLayer", none⟩ ∧
    (∀ c ∈ "MyLayer".data, c ≠ ':') ∧
    layerArn ⟨"MyLayer", "./code", true, "MyLayer", none⟩ = none :=
  ⟨rfl, by decide, layer_arn_no_colon "MyLayer" "./code" _ rfl (by decide)⟩

/-- C10: a present `Cors` whose four fields are all `None` maps to the
empty header mapping — the same result as an absent `Cors`, even though it
is handled by the field-filtering branch, not the absent-Cors guard. -/
theorem all_none_cors_headers :
    corsToHeaders (some ⟨none, none, none, none⟩) = [] ∧ corsToHeaders none = [] :=
  ⟨rfl, rfl⟩

/-- C1: for an arn with at least two colons whose final segment parses as a
non-negative integer, construction with empty codeuri yields that integer
as the version, and the name is the middle segment, the final segment and
the first 10 lowercase hex characters of the sha256 of the UTF-8 encoded
full arn, joined with the delimiter `-`. -/
theorem published_layer_name_version (arn pre n vs : String) (k : Int)
    (h2 : rsplit2 arn = some (pre, n, vs))
    (hp : parsePyInt vs = some k) (_hk : 0 ≤ k) :
    ∃ lv, mkLayerVersion (.pstr arn) "" = .ok lv ∧
      lv.version = some k ∧
      lv.name = n ++ "-" ++ vs ++ "-" ++ String.mk ((sha256HexChars arn).take 10) ∧
      ((sha256HexChars arn).take 10).length = 10 ∧
      ∀ c ∈ (sha256HexChars arn).take 10, c ∈ hexAlphabet := by
  obtain ⟨rest, h1, h1'⟩ := rsplit2_eq_some arn pre n vs h2
  have hmk : mkLayerVersion (.pstr arn) "" =
      .ok ⟨arn, "", false,
        joinDelim "-" [n, vs, String.mk ((sha256HexChars arn).take 10)], some k⟩ := by
    simp [mkLayerVersion, computeLayerName, computeLayerVersion, h2, h1, hp]
  refine ⟨_, hmk, rfl, ?_, ?_, ?_⟩
  · simp [joinDelim, strAppend_assoc]
  · rw [List.length_take, sha256HexChars_length]
    decide
  · intro c hc
    exact hexDigestChars_mem _ c (List.take_subset 10 _ hc)

/-- Witness for C1 at a concrete published-layer arn. -/
theorem published_layer_name_version_witness :
    rsplit2 "arn:aws:lambda:us-east-1:123456789012:layer:mylayer:3" =
      some ("arn:aws:lambda:us-east-1:123456789012:layer", "mylayer", "3") ∧
    parsePyInt "3" = some 3 ∧ (0 : Int) ≤ 3 ∧
    (∃ lv, mkLayerVersion (.pstr "arn:aws:lambda:us-east-1:123456789012:layer:mylayer:3") "" = .ok lv ∧
      lv.version = some 3 ∧
      lv.name = "mylayer" ++ "-" ++ "3" ++ "-" ++
        String.mk ((sha256HexChars "arn:aws:lambda:us-east-1:123456789012:layer:mylayer:3").take 10) ∧
      ((sha256HexChars "arn:aws:lambda:us-east-1:123456789012:layer:mylayer:3").take 10).length = 10 ∧
      ∀ c ∈ (sha256HexChars "arn:aws:lambda:us-east-1:123456789012:layer:mylayer:3").take 10,
        c ∈ hexAlphabet) :=
  ⟨by decide, by decide, by decide,
    published_layer_name_version "arn:aws:lambda:us-east-1:123456789012:layer:mylayer:3"
      "arn:aws:lambda:us-east-1:123456789012:layer" "mylayer" "3" 3
      (by decide) (by decide) (by decide)⟩

/-- C5: `cors_to_headers` maps an absent Cors to the empty mapping; for a
present Cors a pair `(k, v)` is emitted exactly when `k` is one of the four
fixed header names and the corresponding field is present with value `v` —
so absent fields are omitted, no `None` value is ever emitted, and no other
keys occur. -/
theorem cors_to_headers_spec :
    corsToHeaders none = [] ∧
    ∀ (c : Cors) (k v : String),
      (k, v) ∈ corsToHeaders (some c) ↔
        ((k = "Access-Control-Allow-Origin" ∧ c.allow_origin = some v) ∨
         (k = "Access-Control-Allow-Methods" ∧ c.allow_methods = some v) ∨
         (k = "Access-Control-Allow-Headers" ∧ c.allow_headers = some v) ∨
         (k = "Access-Control-Max-Age" ∧ c.max_age = some v)) := by
  refine ⟨rfl, ?_⟩
  intro c k v
  obtain ⟨o, m, hd, ag⟩ := c
  cases o <;> cases m <;> cases hd <;> cases ag <;> simp [corsToHeaders] <;> aesop

/-- C6: on a published layer (empty codeuri, arn with at least two colons
and an integer final segment), `layer_arn` is the arn with the trailing
`:<version>` segment stripped: the part before the last colon. -/
theorem layer_arn_strips_version (arn pre n vs : String) (k : Int)
    (h2 : rsplit2 arn = some (pre, n, vs)) (hp : parsePyInt vs = some k) :
    ∃ lv, mkLayerVersion (.pstr arn) "" = .ok lv ∧
      layerArn lv = some (pre ++ ":" ++ n) ∧
      arn = (pre ++ ":" ++ n) ++ ":" ++ vs ∧
      ∀ c ∈ vs.data, c ≠ ':' := by
  obtain ⟨rest, h1, h1'⟩ := rsplit2_eq_some arn pre n vs h2
  obtain ⟨hresteq, _⟩ := rsplit1_some_spec rest pre n h1'
  obtain ⟨harneq, hfree⟩ := rsplit1_some_spec arn rest vs h1
  have hmk : mkLayerVersion (.pstr arn) "" =
      .ok ⟨arn, "", false,
        joinDelim "-" [n, vs, String.mk ((sha256HexChars arn).take 10)], some k⟩ := by
    simp [mkLayerVersion, computeLayerName, computeLayerVersion, h2, h1, hp]
  refine ⟨_, hmk, ?_, ?_, hfree⟩
  · simp [layerArn, h1, hresteq]
  · rw [← hresteq]
    exact harneq

/-- Witness for C6 at the arn from the spec, checking the concrete stripped
arn `arn:aws:lambda:us-east-1:123:layer:mylayer`. -/
theorem layer_arn_strips_version_witness :
    rsplit2 "arn:aws:lambda:us-east-1:123:layer:mylayer:4" =
      some ("arn:aws:lambda:us-east-1:123:layer", "mylayer", "4") ∧
    parsePyInt "4" = some 4 ∧
    (∃ lv, mkLayerVersion (.pstr "arn:aws:lambda:us-east-1:123:layer:mylayer:4") "" = .ok lv ∧
      layerArn lv = some "arn:aws:lambda:us-east-1:123:layer:mylayer") := by
  refine ⟨by decide, by decide, ?_⟩
  obtain ⟨lv, hmk, hla, _, _⟩ :=
    layer_arn_strips_version "arn:aws:lambda:us-east-1:123:layer:mylayer:4"
      "arn:aws:lambda:us-east-1:123:layer" "mylayer" "4" 4 (by decide) (by decide)
  exact ⟨lv, hmk, hla.trans (by decide)⟩

/-- C7: `LayerVersion.__eq__` is structural over all instance fields: two
instances built from the same `(arn, codeuri)` compare equal; setting the
codeuri of exactly one of them to a different value makes them unequal; and
comparison with any non-`LayerVersion` value is `False`. -/
theorem layer_version_structural_eq (a : PyVal) (c c' : String) (lv₁ lv₂ : LayerVersion)
    (h₁ : mkLayerVersion a c = .ok lv₁) (h₂ : mkLayerVersion a c = .ok lv₂)
    (hne : c' ≠ c) :
    layerVersionEq lv₁ (.player lv₂) = true ∧
    layerVersionEq lv₁ (.player (setCodeuri lv₂ c')) = false ∧
    ∀ v : PyVal, isLayerVersionVal v = false → layerVersionEq lv₁ v = false := by
  have heq : lv₁ = lv₂ := by
    rw [h₁] at h₂
    exact Except.ok.inj h₂
  have hcu : lv₁.codeuri = c := by
    cases a with
    | pstr s => exact (mkLayerVersion_ok_inv s c lv₁ h₁).2
    | pint nn => simp [mkLayerVersion] at h₁
    | pdict => simp [mkLayerVersion] at h₁
    | player lv => simp [mkLayerVersion] at h₁
  refine ⟨?_, ?_, ?_⟩
  · subst heq
    simp [layerVersionEq]
  · have hner : lv₁ ≠ setCodeuri lv₂ c' := by
      intro he
      have hc' : lv₁.codeuri = c' := by rw [he]; rfl
      exact hne (hc'.symm.trans hcu)
    simp only [layerVersionEq]
    exact beq_eq_false_iff_ne.mpr hner
  · intro v hv
    cases v <;> simp_all [layerVersionEq, isLayerVersionVal]

/-- Witness for C7 at a template-local layer with codeuri `./layer-code`,
re-set to `./elsewhere`. -/
theorem layer_version_structural_eq_witness :
    mkLayerVersion (.pstr "MyLocalLayer") "./layer-code" =
      .ok ⟨"MyLocalLayer", "./layer-code", true, "MyLocalLayer", none⟩ ∧
    ("./elsewhere" : String) ≠ "./layer-code" ∧
    layerVersionEq ⟨"MyLocalLayer", "./layer-code", true, "MyLocalLayer", none⟩
      (.player ⟨"MyLocalLayer", "./layer-code", true, "MyLocalLayer", none⟩) = true ∧
    layerVersionEq ⟨"MyLocalLayer", "./layer-code", true, "MyLocalLayer", none⟩
      (.player (setCodeuri ⟨"MyLocalLayer", "./layer-code", true, "MyLocalLayer", none⟩
        "./elsewhere")) = false ∧
    layerVersionEq ⟨"MyLocalLayer", "./layer-code", true, "MyLocalLayer", none⟩ .pdict = false := by
  have h := layer_version_structural_eq (.pstr "MyLocalLayer") "./layer-code" "./elsewhere"
    ⟨"MyLocalLayer", "./layer-code", true, "MyLocalLayer", none⟩
    ⟨"MyLocalLayer", "./layer-code", true, "MyLocalLayer", none⟩
    rfl rfl (by decide)
  exact ⟨rfl, by decide, h.1, h.2.1, h.2.2 .pdict rfl⟩

end Provider
